import Mathlib

/-!
Verification of the `goed` terminal text editor core.

The Go sources are shallowly embedded: each Lean definition below mirrors one
Go function of the repository (file and line references in the doc comments).
Text is modelled as `List Char` (one Go rune per element), the buffer as
`List (List Char)`.  Go `int` coordinates that the cited operations keep
non-negative are modelled as `Nat`; the viewport arithmetic, which is the one
place where intermediate values can matter near zero, is modelled over `Int`.
Rendering-only state (tcell screen, styles, dirty flag, status message,
command buffer, display toggles) is omitted: no verified claim mentions it.
-/

/-- Model of bufio's `dropCR` (used by `bufio.ScanLines`): drops a single
terminal carriage return from the data, if present. -/
def dropCR (l : List Char) : List Char :=
  if l.getLast? = some '\r' then l.dropLast else l

/-- Accumulator version of the `bufio.Scanner`/`bufio.ScanLines` loop in
`loadFile` (editor.go:669-672): `acc` holds the characters of the current
line read so far, in reverse.  On a newline the accumulated token is emitted
(with a trailing CR stripped); at end of input a non-empty remainder is
emitted as a final line, an empty remainder is not. -/
def scanLinesAux : List Char → List Char → List (List Char)
  | acc, [] => if acc.isEmpty then [] else [dropCR acc.reverse]
  | acc, c :: cs =>
    if c = '\n' then dropCR acc.reverse :: scanLinesAux [] cs
    else scanLinesAux (c :: acc) cs

/-- The list of lines `bufio.Scanner` yields for a file whose content is
`content` (the scanner loop of `loadFile`, editor.go:669-672). -/
def scanLines (content : List Char) : List (List Char) :=
  scanLinesAux [] content

/-- The buffer `loadFile` ends with after successfully reading a file with
content `content`: the scanned lines, or one empty line when the file is
empty (editor.go:668-678). -/
def loadBuffer (content : List Char) : List (List Char) :=
  let ls := scanLines content
  if ls.isEmpty then [[]] else ls

/-- The byte sequence `saveFile` writes for buffer `lines`: each line
followed by a single newline (editor.go:711-715). -/
def saveContent (lines : List (List Char)) : List Char :=
  (lines.map (fun l => l ++ ['\n'])).flatten

/-- The content of a file whose text lines are `ls` when the final line is
not terminated, i.e. the lines joined by single newline separators (the form
of the spec's example input). -/
def joinSep : List (List Char) → List Char
  | [] => []
  | [l] => l
  | l :: ls => l ++ '\n' :: joinSep ls

/-- Editor state (editor.go:35-62).  Only the fields that the verified
operations read or write are modelled; `offsetY`/`h` are carried for the
page-scroll operations. -/
structure Editor where
  lines : List (List Char)
  cursorX : Nat
  cursorY : Nat
  offsetY : Nat
  h : Nat
  currentFilename : List Char
  inCommandMode : Bool
  spacesPerTab : Nat
  deriving Repr, DecidableEq

/-- Initial editor state built by `NewEditor` (editor.go:70-89): one empty
line, cursor and offsets at zero, insert mode, four spaces per tab.  The
screen height is a parameter of the embedding (tcell supplies it at run
time); it does not affect any buffer claim. -/
def NewEditor (h : Nat) : Editor :=
  { lines := [[]]
    cursorX := 0
    cursorY := 0
    offsetY := 0
    h := h
    currentFilename := []
    inCommandMode := false
    spacesPerTab := 4 }

/-- `handleInsertRune` (editor.go:506-518): appends an empty row if the
cursor row is past the buffer, clamps the column to the line length, inserts
the rune at the column (`slices.Insert`), and advances the column by one. -/
def handleInsertRune (e : Editor) (r : Char) : Editor :=
  let lines := if e.cursorY ≥ e.lines.length then e.lines ++ [[]] else e.lines
  let line := lines.getD e.cursorY []
  let cx := if e.cursorX > line.length then line.length else e.cursorX
  { e with
    lines := lines.set e.cursorY (line.take cx ++ r :: line.drop cx)
    cursorX := cx + 1 }

/-- `handleBackspace` (editor.go:290-305): with the cursor inside the buffer
and the column positive, deletes the character left of the cursor
(`slices.Delete line (cursorX-1) cursorX`); otherwise, on a positive row,
merges the current row into the previous one and removes it. -/
def handleBackspace (e : Editor) : Editor :=
  if e.cursorY < e.lines.length ∧ e.cursorX > 0 then
    let line := e.lines.getD e.cursorY []
    { e with
      lines := e.lines.set e.cursorY (line.take (e.cursorX - 1) ++ line.drop e.cursorX)
      cursorX := e.cursorX - 1 }
  else if e.cursorY > 0 then
    let prevLine := e.lines.getD (e.cursorY - 1) []
    { e with
      lines := (e.lines.set (e.cursorY - 1) (prevLine ++ e.lines.getD e.cursorY [])).eraseIdx e.cursorY
      cursorX := prevLine.length
      cursorY := e.cursorY - 1 }
  else e

/-- `handleDelete` (editor.go:421-433): deletes the character under the
cursor, or, at end of a non-final line, merges the next row into the current
one and removes it. -/
def handleDelete (e : Editor) : Editor :=
  if e.cursorY < e.lines.length ∧ e.cursorX < (e.lines.getD e.cursorY []).length then
    let line := e.lines.getD e.cursorY []
    { e with lines := e.lines.set e.cursorY (line.take e.cursorX ++ line.drop (e.cursorX + 1)) }
  else if e.cursorY + 1 < e.lines.length then
    let nextLine := e.lines.getD (e.cursorY + 1) []
    { e with lines := (e.lines.set e.cursorY (e.lines.getD e.cursorY [] ++ nextLine)).eraseIdx (e.cursorY + 1) }
  else e

/-- `handleEnter` (editor.go:437-447): splits the current line at the cursor
column, inserting the tail as a new row after the current one; the cursor
moves to the start of the new row. -/
def handleEnter (e : Editor) : Editor :=
  if e.cursorY < e.lines.length then
    let line := e.lines.getD e.cursorY []
    { e with
      lines := (e.lines.set e.cursorY (line.take e.cursorX)).insertIdx (e.cursorY + 1) (line.drop e.cursorX)
      cursorX := 0
      cursorY := e.cursorY + 1 }
  else e

/-- `handleMoveLeft` (editor.go:553-561). -/
def handleMoveLeft (e : Editor) : Editor :=
  if e.cursorX > 0 then { e with cursorX := e.cursorX - 1 }
  else if e.cursorY > 0 then
    { e with cursorY := e.cursorY - 1, cursorX := (e.lines.getD (e.cursorY - 1) []).length }
  else e

/-- `handleMoveRight` (editor.go:565-573). -/
def handleMoveRight (e : Editor) : Editor :=
  if e.cursorY < e.lines.length ∧ e.cursorX < (e.lines.getD e.cursorY []).length then
    { e with cursorX := e.cursorX + 1 }
  else if e.cursorY + 1 < e.lines.length then
    { e with cursorY := e.cursorY + 1, cursorX := 0 }
  else e

/-- `handleMoveUp` (editor.go:592-604): on a positive row, records whether
the cursor sat exactly at end of line, moves up one row, and snaps a
positive column to the target row's length when it was at end of line or
exceeds that length. -/
def handleMoveUp (e : Editor) : Editor :=
  if e.cursorY > 0 then
    let eol := e.cursorX = (e.lines.getD e.cursorY []).length
    let prevLine := e.lines.getD (e.cursorY - 1) []
    let cx := if e.cursorX > 0 ∧ (eol ∨ e.cursorX > prevLine.length) then prevLine.length else e.cursorX
    { e with cursorY := e.cursorY - 1, cursorX := cx }
  else e

/-- `handleMoveDown` (editor.go:537-549): symmetric to `handleMoveUp`, for
a row that is not the last one. -/
def handleMoveDown (e : Editor) : Editor :=
  if e.cursorY + 1 < e.lines.length then
    let eol := e.cursorX = (e.lines.getD e.cursorY []).length
    let nextLine := e.lines.getD (e.cursorY + 1) []
    let cx := if e.cursorX > 0 ∧ (eol ∨ e.cursorX > nextLine.length) then nextLine.length else e.cursorX
    { e with cursorY := e.cursorY + 1, cursorX := cx }
  else e

/-- `handleMoveToStart` (editor.go:585-588). -/
def handleMoveToStart (e : Editor) : Editor :=
  { e with cursorX := 0 }

/-- `handleMoveToEnd` (editor.go:577-582). -/
def handleMoveToEnd (e : Editor) : Editor :=
  if e.cursorY < e.lines.length then
    { e with cursorX := (e.lines.getD e.cursorY []).length }
  else e

/-- `handlePageUp` (editor.go:628-640).  Go computes `offsetY -= h-1` and
clamps negatives to zero; for positive screen height `h` the `Nat`
truncated subtraction below yields exactly that clamped value. -/
def handlePageUp (e : Editor) : Editor :=
  if e.offsetY > 0 then
    let oy := e.offsetY - (e.h - 1)
    let cy := oy
    { e with
      offsetY := oy
      cursorY := cy
      cursorX := if e.cursorX > (e.lines.getD cy []).length then (e.lines.getD cy []).length else e.cursorX }
  else e

/-- `handlePageDown` (editor.go:608-624).  Go computes `offsetY += h-1`,
clamps to `len(lines)-1`, then places the cursor at `offsetY + h - 1`
clamped to the last row; under the guard `offsetY < len(lines)-1` those
quantities are non-negative for positive `h`, and the `Nat` arithmetic
below coincides with Go's. -/
def handlePageDown (e : Editor) : Editor :=
  if e.offsetY < e.lines.length - 1 then
    let oy := if e.offsetY + (e.h - 1) > e.lines.length - 1 then e.lines.length - 1 else e.offsetY + (e.h - 1)
    let cy := if oy + (e.h - 1) ≥ e.lines.length then e.lines.length - 1 else oy + (e.h - 1)
    { e with
      offsetY := oy
      cursorY := cy
      cursorX := if e.cursorX > (e.lines.getD cy []).length then (e.lines.getD cy []).length else e.cursorX }
  else e

/-- Outcome of the file-system interaction of one `loadFile` call:
the open fails, or the open succeeds and the scanner stops with an error
after yielding the lines `got`, or the whole content is read. -/
inductive FileRead where
  | openFail
  | readErr (got : List (List Char))
  | ok (content : List Char)
  deriving Repr, DecidableEq

/-- `loadFile` (editor.go:648-691).  `fname` is the cleaned file name and
`line`/`col` the zero-based cursor position parsed from a `name:line:col`
suffix (both `0` when no suffix is given, as in Go where the variables
default to zero).  The returned Bool records whether an error was returned.
On an open failure Go returns before touching any state; on a scanner error
Go has already replaced `e.lines` with the lines read so far and returns
before the empty-buffer fixup, the cursor reset, and the filename update. -/
def loadFile (e : Editor) (fname : List Char) (line col : Int) (f : FileRead) : Editor × Bool :=
  match f with
  | .openFail => (e, true)
  | .readErr got => ({ e with lines := got }, true)
  | .ok content =>
    let ls := loadBuffer content
    let cy := if 0 ≤ line ∧ line < (ls.length : Int) then line.toNat else 0
    let cx := if 0 ≤ line ∧ line < (ls.length : Int) ∧ 0 ≤ col ∧ col < ((ls.getD (if 0 ≤ line ∧ line < (ls.length : Int) then line.toNat else 0) []).length : Int) then col.toNat else 0
    ({ e with lines := ls, cursorX := cx, cursorY := cy, currentFilename := fname }, false)

/-- One editor operation of the kinds quantified over by the buffer
invariant claim: buffer edits, navigation, and a file load with an
arbitrary file-system outcome. -/
inductive Op where
  | insertChar (r : Char)
  | insertTab
  | backspace
  | delete
  | splitLine
  | moveLeft
  | moveRight
  | moveUp
  | moveDown
  | moveHome
  | moveEnd
  | pageUp
  | pageDown
  | load (fname : List Char) (line col : Int) (f : FileRead)

/-- Dispatch of one operation on the editor state, following the key
dispatch in `handleInsertMode` (editor.go:459-501; Tab inserts a literal
tab rune via `handleInsertRune`) and the `:e` command path for loads. -/
def applyOp (e : Editor) : Op → Editor
  | .insertChar r => handleInsertRune e r
  | .insertTab => handleInsertRune e '\t'
  | .backspace => handleBackspace e
  | .delete => handleDelete e
  | .splitLine => handleEnter e
  | .moveLeft => handleMoveLeft e
  | .moveRight => handleMoveRight e
  | .moveUp => handleMoveUp e
  | .moveDown => handleMoveDown e
  | .moveHome => handleMoveToStart e
  | .moveEnd => handleMoveToEnd e
  | .pageUp => handlePageUp e
  | .pageDown => handlePageDown e
  | .load fname line col f => (loadFile e fname line col f).fst

/-- A sequence of operations applied in order. -/
def applyOps (e : Editor) (ops : List Op) : Editor :=
  ops.foldl applyOp e

/-- Whether an operation is a file load that fails with a read error after
the file has been opened (the one operation that can leave the buffer with
the lines read before the error, editor.go:668-675). -/
def isMidReadFailLoad : Op → Bool
  | .load _ _ _ (.readErr _) => true
  | _ => false

/-- `calculateCursorOffsetX` (editor.go:524-533): the extra visual width
contributed by tabs in the line prefix before the cursor, each tab adding
`spacesPerTab - 1` columns. -/
def calculateCursorOffsetX (e : Editor) (line : List Char) : Nat :=
  (line.take (min e.cursorX line.length)).foldl
    (fun offset r => if r = '\t' then offset + (e.spacesPerTab - 1) else offset) 0

/-- The visual (tab-expanded) cursor column derived in `draw`
(editor.go:190-191): the logical column plus the tab offset of the current
line. -/
def visualCol (e : Editor) : Nat :=
  e.cursorX + calculateCursorOffsetX e (e.lines.getD e.cursorY [])

/-- The viewport state read and written by `adjustOffsets`, over `Int` like
the Go `int` fields.  `cursorVX` is the horizontal cursor coordinate the
function consults: `e.cursorX` in editor.go:93-111, the tab-expanded
`e.virtualCursorX` in main.go:613-633; the arithmetic is identical in both
revisions. -/
structure ViewState where
  cursorVX : Int
  cursorY : Int
  offsetX : Int
  offsetY : Int
  w : Int
  h : Int
  deriving Repr, DecidableEq

/-- `adjustOffsets` (editor.go:93-111, main.go:613-633): pulls `offsetX`
back to the cursor column or forward to `cursorVX - w + 1`, and `offsetY`
up to the cursor row or down to `cursorY - h + 1`, leaving each offset
unchanged when the cursor is already inside the corresponding range. -/
def adjustOffsets (v : ViewState) : ViewState :=
  let v1 :=
    if v.cursorVX < v.offsetX then { v with offsetX := v.cursorVX }
    else if v.cursorVX ≥ v.offsetX + v.w then { v with offsetX := v.cursorVX - v.w + 1 }
    else v
  if v1.cursorY < v1.offsetY then { v1 with offsetY := v1.cursorY }
  else if v1.cursorY ≥ v1.offsetY + v1.h - 1 then { v1 with offsetY := v1.cursorY - v1.h + 1 }
  else v1

/-- Highlight cache state (highlightcache.go:10-15).  The Go
`map[int]map[int]tcell.Style` is modelled as a function from line index to
an optional cached value; the per-line span type is an arbitrary `α`, and
the highlighter's `GetHighlightMap` is the function field `highlighter`. -/
structure HighlightCache (α : Type) where
  cache : Int → Option α
  highlighter : List Char → α
  retention : Int
  lastOffset : Int

/-- `NewHighlightCache` (highlightcache.go:18-25): empty cache,
`lastOffset = -1`. -/
def NewHighlightCache (hl : List Char → α) (retention : Int) : HighlightCache α :=
  { cache := fun _ => none, highlighter := hl, retention := retention, lastOffset := -1 }

/-- `Clear` (highlightcache.go:28-30): replaces the cache with a fresh empty
map. -/
def HighlightCache.Clear (hc : HighlightCache α) : HighlightCache α :=
  { hc with cache := fun _ => none }

/-- Start of the update window computed by `Update`
(highlightcache.go:34-39): `offsetY - retention*height`, clamped below to
zero. -/
def HighlightCache.updateStart (hc : HighlightCache α) (offsetY height : Int) : Int :=
  let start := offsetY - hc.retention * height
  if start < 0 then 0 else start

/-- End of the update window computed by `Update` (highlightcache.go:35-42):
`offsetY + retention*height`, clamped above to the line count. -/
def HighlightCache.updateEnd (hc : HighlightCache α) (offsetY height : Int) (lines : List (List Char)) : Int :=
  let stop := offsetY + hc.retention * height
  if stop > (lines.length : Int) then (lines.length : Int) else stop

/-- `Update` (highlightcache.go:33-53): for every line index in the window
`[start, end)` that has no cache entry, computes its highlight via the
highlighter and merges the batch into the cache; existing entries are left
as they are. -/
def HighlightCache.Update (hc : HighlightCache α) (offsetY height : Int) (lines : List (List Char)) : HighlightCache α :=
  { hc with cache := fun i =>
      if hc.updateStart offsetY height ≤ i ∧ i < hc.updateEnd offsetY height lines ∧ (hc.cache i).isNone
      then some (hc.highlighter (lines.getD i.toNat []))
      else hc.cache i }

/-- `Exists` (highlightcache.go:56-59): whether a line index has a cache
entry. -/
def HighlightCache.Exists (hc : HighlightCache α) (lineIndex : Int) : Bool :=
  (hc.cache lineIndex).isSome

/-- `Get` (highlightcache.go:67-69): the cached entry for a line index; a Go
map lookup yields the zero value (`nil` map) when absent, modelled by
`Option`. -/
def HighlightCache.Get (hc : HighlightCache α) (lineIndex : Int) : Option α :=
  hc.cache lineIndex

/-- `ClearLine` (highlightcache.go:72-74): deletes exactly one line's cache
entry. -/
def HighlightCache.ClearLine (hc : HighlightCache α) (lineIndex : Int) : HighlightCache α :=
  { hc with cache := fun j => if j = lineIndex then none else hc.cache j }

/-! ### Concrete states used to instantiate the theorems -/

/-- The three text lines of the spec's load/save example. -/
def exThreeLines : List (List Char) :=
  ["Line1".toList, "Line2".toList, "Line3".toList]

/-- A two-line buffer used to instantiate the save theorem. -/
def exPairLines : List (List Char) :=
  [['a', 'b'], ['c']]

/-- A small editor: one line of two characters with the cursor between
them. -/
def eSample : Editor :=
  { NewEditor 24 with lines := [['h', 'i']], cursorX := 1, cursorY := 0 }

/-- An editor with its cursor at the end of a two-character first line and a
longer second line, for the vertical-move rule. -/
def eTwoLines : Editor :=
  { NewEditor 24 with lines := [['a', 'b'], ['a', 'b', 'c', 'd']], cursorX := 2, cursorY := 0 }

/-- A one-line editor with a current file, for the load-failure theorems. -/
def eOneLine : Editor :=
  { NewEditor 24 with lines := [['a']], currentFilename := ['f'] }

/-- A viewport whose cursor row is far below the visible window. -/
def vFarBelow : ViewState :=
  { cursorVX := 0, cursorY := 100, offsetX := 0, offsetY := 0, w := 5, h := 5 }

/-- A five-line buffer for the highlight-cache theorems. -/
def exFiveLines : List (List Char) :=
  [['a'], ['b', 'b'], ['c', 'c', 'c'], [], ['e']]

/-- A highlight cache over span type `Nat` whose highlighter records the
line length, with the retention factor used by the repository. -/
def hcSample : HighlightCache Nat :=
  NewHighlightCache (fun l => l.length) 3

/-! ### Helper lemmas about lists -/

theorem getD_set_self {α : Type} (l : List α) (i : Nat) (x d : α) (h : i < l.length) :
    (l.set i x).getD i d = x := by
  induction l generalizing i with
  | nil => simp at h
  | cons a l ih =>
    cases i with
    | zero => rfl
    | succ j => simpa using ih j (by simpa using h)

theorem set_getD_self {α : Type} (l : List α) (i : Nat) (d : α) (h : i < l.length) :
    l.set i (l.getD i d) = l := by
  induction l generalizing i with
  | nil => simp at h
  | cons a l ih =>
    cases i with
    | zero => rfl
    | succ j => simpa using ih j (by simpa using h)

theorem getD_insertIdx_of_lt {α : Type} (l : List α) (n i : Nat) (x d : α) (h : i < n) :
    (l.insertIdx n x).getD i d = l.getD i d := by
  induction l generalizing i n with
  | nil =>
    cases n with
    | zero => omega
    | succ m => rfl
  | cons a l ih =>
    cases n with
    | zero => omega
    | succ m =>
      cases i with
      | zero => rfl
      | succ j => simpa [List.insertIdx_succ_cons] using ih m j (by omega)

theorem getD_insertIdx_self {α : Type} (l : List α) (n : Nat) (x d : α) (h : n ≤ l.length) :
    (l.insertIdx n x).getD n d = x := by
  induction l generalizing n with
  | nil =>
    cases n with
    | zero => rfl
    | succ m => simp at h
  | cons a l ih =>
    cases n with
    | zero => rfl
    | succ m => simpa [List.insertIdx_succ_cons] using ih m (by simpa using h)

theorem set_insertIdx_of_lt {α : Type} (l : List α) (n i : Nat) (x y : α) (h : i < n) :
    (l.insertIdx n x).set i y = (l.set i y).insertIdx n x := by
  induction l generalizing i n with
  | nil =>
    cases n with
    | zero => omega
    | succ m => rfl
  | cons a l ih =>
    cases n with
    | zero => omega
    | succ m =>
      cases i with
      | zero => simp [List.insertIdx_succ_cons]
      | succ j => simp [List.insertIdx_succ_cons, ih m j (by omega)]

/-! ### Lemmas about the scanner -/

theorem saveContent_cons (l : List Char) (ls : List (List Char)) :
    saveContent (l :: ls) = l ++ '\n' :: saveContent ls := by
  simp [saveContent]

theorem dropCR_of_not_mem (l : List Char) (h : '\r' ∉ l) : dropCR l = l := by
  unfold dropCR
  split
  · next heq =>
    exact absurd (by simpa using List.getLast?_eq_some_iff.mp heq) (by
      intro ⟨ys, hys⟩
      exact h (hys ▸ (by simp)))
  · rfl

theorem scanLinesAux_append_newline (l rest acc : List Char) (h : '\n' ∉ l) :
    scanLinesAux acc (l ++ '\n' :: rest) =
      dropCR (acc.reverse ++ l) :: scanLinesAux [] rest := by
  induction l generalizing acc with
  | nil => simp [scanLinesAux]
  | cons c l ih =>
    have hc : ¬(c = '\n') := fun hcc => h (by simp [hcc])
    simp only [List.cons_append, scanLinesAux, if_neg hc, List.append_eq]
    rw [ih (c :: acc) (fun hm => h (List.mem_cons_of_mem _ hm))]
    simp

theorem scanLinesAux_no_newline (l acc : List Char) (h : '\n' ∉ l) :
    scanLinesAux acc l =
      if acc.reverse ++ l = [] then [] else [dropCR (acc.reverse ++ l)] := by
  induction l generalizing acc with
  | nil => simp [scanLinesAux, List.isEmpty_iff]
  | cons c l ih =>
    have hc : ¬(c = '\n') := fun hcc => h (by simp [hcc])
    simp only [scanLinesAux, if_neg hc]
    rw [ih (c :: acc) (fun hm => h (List.mem_cons_of_mem _ hm))]
    simp

theorem scanLines_saveContent (ls : List (List Char))
    (hc : ∀ l ∈ ls, '\n' ∉ l ∧ '\r' ∉ l) :
    scanLines (saveContent ls) = ls := by
  induction ls with
  | nil => rfl
  | cons l ls ih =>
    have h1 := hc l (by simp)
    rw [scanLines, saveContent_cons, scanLinesAux_append_newline l (saveContent ls) [] h1.1]
    rw [List.reverse_nil, List.nil_append, dropCR_of_not_mem l h1.2]
    rw [← scanLines, ih (fun x hx => hc x (by simp [hx]))]

theorem scanLines_joinSep (ls : List (List Char)) (h1 : ls ≠ [])
    (hc : ∀ l ∈ ls, '\n' ∉ l ∧ '\r' ∉ l) (hlast : ls.getLast? ≠ some []) :
    scanLines (joinSep ls) = ls := by
  induction ls with
  | nil => exact absurd rfl h1
  | cons l ls ih =>
    cases ls with
    | nil =>
      have hl := hc l (by simp)
      have hne : l ≠ [] := by simpa using hlast
      rw [joinSep, scanLines, scanLinesAux_no_newline l [] hl.1]
      simp [hne, dropCR_of_not_mem l hl.2]
    | cons l2 ls2 =>
      have hl := hc l (by simp)
      have : joinSep (l :: l2 :: ls2) = l ++ '\n' :: joinSep (l2 :: ls2) := rfl
      rw [scanLines, this, scanLinesAux_append_newline l _ [] hl.1]
      rw [List.reverse_nil, List.nil_append, dropCR_of_not_mem l hl.2]
      rw [← scanLines, ih (by simp) (fun x hx => hc x (by simp [hx])) (by simpa using hlast)]

theorem saveContent_eq_joinSep (ls : List (List Char)) (h1 : ls ≠ []) :
    saveContent ls = joinSep ls ++ ['\n'] := by
  induction ls with
  | nil => exact absurd rfl h1
  | cons l ls ih =>
    cases ls with
    | nil => simp [saveContent, joinSep]
    | cons l2 ls2 =>
      have hj : joinSep (l :: l2 :: ls2) = l ++ '\n' :: joinSep (l2 :: ls2) := rfl
      rw [saveContent_cons, ih (by simp), hj]
      simp

theorem saveContent_ne_nil (ls : List (List Char)) (h1 : ls ≠ []) :
    saveContent ls ≠ [] := by
  cases ls with
  | nil => exact absurd rfl h1
  | cons l ls => simp [saveContent]

/-! ### Lemmas about the editing operations -/

theorem handleInsertRune_valid_eq (e : Editor) (r : Char)
    (hY : e.cursorY < e.lines.length)
    (hX : e.cursorX ≤ (e.lines.getD e.cursorY []).length) :
    handleInsertRune e r =
      { e with
        lines := e.lines.set e.cursorY
          ((e.lines.getD e.cursorY []).take e.cursorX ++ r :: (e.lines.getD e.cursorY []).drop e.cursorX)
        cursorX := e.cursorX + 1 } := by
  have hnotge : ¬(e.cursorY ≥ e.lines.length) := by omega
  have hnotgt : ¬(e.cursorX > (e.lines.getD e.cursorY []).length) := by omega
  simp only [handleInsertRune, if_neg hnotge, if_neg hnotgt]

theorem handleBackspace_pos_eq (e : Editor)
    (hY : e.cursorY < e.lines.length) (hX : 0 < e.cursorX) :
    handleBackspace e =
      { e with
        lines := e.lines.set e.cursorY
          ((e.lines.getD e.cursorY []).take (e.cursorX - 1) ++ (e.lines.getD e.cursorY []).drop e.cursorX)
        cursorX := e.cursorX - 1 } := by
  simp only [handleBackspace, if_pos (And.intro hY hX)]

theorem backspace_insert (e : Editor) (r : Char)
    (hY : e.cursorY < e.lines.length)
    (hX : e.cursorX ≤ (e.lines.getD e.cursorY []).length) :
    handleBackspace (handleInsertRune e r) = e := by
  rw [handleInsertRune_valid_eq e r hY hX]
  rw [handleBackspace_pos_eq _ (by simpa [List.length_set] using hY) (Nat.succ_pos e.cursorX)]
  have htk : ((e.lines.getD e.cursorY []).take e.cursorX).length = e.cursorX := by
    rw [List.length_take]; omega
  have hget : ((e.lines.set e.cursorY
      ((e.lines.getD e.cursorY []).take e.cursorX ++ r :: (e.lines.getD e.cursorY []).drop e.cursorX)).getD e.cursorY [])
      = (e.lines.getD e.cursorY []).take e.cursorX ++ r :: (e.lines.getD e.cursorY []).drop e.cursorX :=
    getD_set_self _ _ _ _ hY
  have h1 : ((e.lines.getD e.cursorY []).take e.cursorX ++ r :: (e.lines.getD e.cursorY []).drop e.cursorX).take (e.cursorX + 1 - 1)
      = (e.lines.getD e.cursorY []).take e.cursorX := by
    rw [Nat.add_sub_cancel]
    exact List.take_left' htk
  have h2 : ((e.lines.getD e.cursorY []).take e.cursorX ++ r :: (e.lines.getD e.cursorY []).drop e.cursorX).drop (e.cursorX + 1)
      = (e.lines.getD e.cursorY []).drop e.cursorX := by
    have hsplit : (e.lines.getD e.cursorY []).take e.cursorX ++ r :: (e.lines.getD e.cursorY []).drop e.cursorX
        = ((e.lines.getD e.cursorY []).take e.cursorX ++ [r]) ++ (e.lines.getD e.cursorY []).drop e.cursorX := by
      simp
    rw [hsplit]
    exact List.drop_left' (by simp only [List.length_append, List.length_cons, List.length_nil, htk])
  simp only [hget, h1, h2]
  rw [List.take_append_drop, List.set_set, set_getD_self _ _ _ hY]
  simp

theorem handleInsertRune_valid (e : Editor) (r : Char)
    (hY : e.cursorY < e.lines.length)
    (hX : e.cursorX ≤ (e.lines.getD e.cursorY []).length) :
    (handleInsertRune e r).cursorY < (handleInsertRune e r).lines.length ∧
    (handleInsertRune e r).cursorX ≤
      ((handleInsertRune e r).lines.getD (handleInsertRune e r).cursorY []).length := by
  rw [handleInsertRune_valid_eq e r hY hX]
  have htk : ((e.lines.getD e.cursorY []).take e.cursorX).length = e.cursorX := by
    rw [List.length_take]; omega
  refine ⟨by simpa [List.length_set] using hY, ?_⟩
  rw [show ({ e with
        lines := e.lines.set e.cursorY
          ((e.lines.getD e.cursorY []).take e.cursorX ++ r :: (e.lines.getD e.cursorY []).drop e.cursorX)
        cursorX := e.cursorX + 1 } : Editor).cursorY = e.cursorY from rfl]
  rw [show ({ e with
        lines := e.lines.set e.cursorY
          ((e.lines.getD e.cursorY []).take e.cursorX ++ r :: (e.lines.getD e.cursorY []).drop e.cursorX)
        cursorX := e.cursorX + 1 } : Editor).lines = e.lines.set e.cursorY
          ((e.lines.getD e.cursorY []).take e.cursorX ++ r :: (e.lines.getD e.cursorY []).drop e.cursorX) from rfl]
  rw [getD_set_self _ _ _ _ hY]
  simp only [List.length_append, List.length_cons, List.length_take, List.length_drop]
  omega

theorem insert_backspace_roundtrip_aux (rs : List Char) (e : Editor)
    (hY : e.cursorY < e.lines.length)
    (hX : e.cursorX ≤ (e.lines.getD e.cursorY []).length) :
    handleBackspace^[rs.length] (rs.foldl handleInsertRune e) = e := by
  induction rs generalizing e with
  | nil => rfl
  | cons r rs ih =>
    have hv := handleInsertRune_valid e r hY hX
    calc handleBackspace^[rs.length + 1] ((r :: rs).foldl handleInsertRune e)
        = handleBackspace (handleBackspace^[rs.length] (rs.foldl handleInsertRune (handleInsertRune e r))) := by
          rw [Function.iterate_succ_apply']; rfl
      _ = handleBackspace (handleInsertRune e r) := by rw [ih (handleInsertRune e r) hv.1 hv.2]
      _ = e := backspace_insert e r hY hX

theorem enter_backspace (e : Editor)
    (hY : e.cursorY < e.lines.length)
    (hX : e.cursorX ≤ (e.lines.getD e.cursorY []).length) :
    handleBackspace (handleEnter e) = e := by
  have henter : handleEnter e =
      { e with
        lines := (e.lines.set e.cursorY ((e.lines.getD e.cursorY []).take e.cursorX)).insertIdx
          (e.cursorY + 1) ((e.lines.getD e.cursorY []).drop e.cursorX)
        cursorX := 0
        cursorY := e.cursorY + 1 } := by
    simp only [handleEnter, if_pos hY]
  rw [henter]
  have hlen1 : (e.lines.set e.cursorY ((e.lines.getD e.cursorY []).take e.cursorX)).length = e.lines.length :=
    List.length_set _ _ _
  have hcond : ¬(e.cursorY + 1 < ((e.lines.set e.cursorY ((e.lines.getD e.cursorY []).take e.cursorX)).insertIdx
      (e.cursorY + 1) ((e.lines.getD e.cursorY []).drop e.cursorX)).length ∧ (0 : Nat) > 0) := by
    simp
  simp only [handleBackspace]
  rw [if_neg hcond, if_pos (Nat.succ_pos e.cursorY)]
  rw [Nat.add_sub_cancel]
  rw [getD_insertIdx_of_lt _ _ _ _ _ (Nat.lt_succ_self e.cursorY)]
  rw [getD_set_self _ _ _ _ hY]
  rw [getD_insertIdx_self _ _ _ _ (by rw [hlen1]; exact hY)]
  rw [set_insertIdx_of_lt _ _ _ _ _ (Nat.lt_succ_self e.cursorY)]
  rw [List.set_set, List.take_append_drop, set_getD_self _ _ _ hY]
  rw [List.eraseIdx_insertIdx]
  have hxlen : ((e.lines.getD e.cursorY []).take e.cursorX).length = e.cursorX := by
    rw [List.length_take]; omega
  rw [hxlen]

/-! ### The buffer-nonempty invariant -/

theorem loadBuffer_ne_nil (content : List Char) : loadBuffer content ≠ [] := by
  show (if (scanLines content).isEmpty then [[]] else scanLines content) ≠ []
  split
  · simp
  · next h => simpa [List.isEmpty_iff] using h

theorem applyOp_preserves_nonempty (e : Editor) (op : Op)
    (he : 1 ≤ e.lines.length) (hop : isMidReadFailLoad op = false) :
    1 ≤ (applyOp e op).lines.length := by
  cases op with
  | insertChar r =>
    simp only [applyOp, handleInsertRune]
    split
    · simp only [List.length_set, List.length_append, List.length_cons, List.length_nil]
      omega
    · simp only [List.length_set]
      omega
  | insertTab =>
    simp only [applyOp, handleInsertRune]
    split
    · simp only [List.length_set, List.length_append, List.length_cons, List.length_nil]
      omega
    · simp only [List.length_set]
      omega
  | backspace =>
    simp only [applyOp, handleBackspace]
    split
    · simpa [List.length_set] using he
    · split
      · simp only [List.length_eraseIdx, List.length_set]
        split <;> omega
      · exact he
  | delete =>
    simp only [applyOp, handleDelete]
    split
    · simpa [List.length_set] using he
    · split
      · simp only [List.length_eraseIdx, List.length_set]
        split <;> omega
      · exact he
  | splitLine =>
    simp only [applyOp, handleEnter]
    split
    · next h1 =>
      rw [List.length_insertIdx _ _ (by simpa [List.length_set] using h1)]
      omega
    · exact he
  | moveLeft =>
    simp only [applyOp, handleMoveLeft]
    split
    · exact he
    · split <;> exact he
  | moveRight =>
    simp only [applyOp, handleMoveRight]
    split
    · exact he
    · split <;> exact he
  | moveUp =>
    simp only [applyOp, handleMoveUp]
    split <;> exact he
  | moveDown =>
    simp only [applyOp, handleMoveDown]
    split <;> exact he
  | moveHome => exact he
  | moveEnd =>
    simp only [applyOp, handleMoveToEnd]
    split <;> exact he
  | pageUp =>
    simp only [applyOp, handlePageUp]
    split <;> exact he
  | pageDown =>
    simp only [applyOp, handlePageDown]
    split <;> exact he
  | load fname line col f =>
    cases f with
    | openFail => exact he
    | readErr got => simp [isMidReadFailLoad] at hop
    | ok content =>
      simp only [applyOp, loadFile]
      have := loadBuffer_ne_nil content
      have : 0 < (loadBuffer content).length := List.length_pos.mpr this
      simpa using this

/-! ### Tab-offset arithmetic -/

theorem foldl_tabOffset (l : List Char) (k n : Nat) :
    l.foldl (fun offset r => if r = '\t' then offset + k else offset) n
      = n + l.count '\t' * k := by
  induction l generalizing n with
  | nil => simp
  | cons c l ih =>
    by_cases hc : c = '\t'
    · simp [hc, List.foldl_cons, ih, List.count_cons, Nat.add_mul, Nat.one_mul]
      ring
    · simp [hc, List.foldl_cons, ih, List.count_cons]

theorem calculateCursorOffsetX_eq_count (e : Editor) (line : List Char) :
    calculateCursorOffsetX e line
      = (line.take (min e.cursorX line.length)).count '\t' * (e.spacesPerTab - 1) := by
  rw [calculateCursorOffsetX, foldl_tabOffset]
  exact Nat.zero_add _

/-! ### Claim theorems -/

/-- C1: for every file whose content is a sequence of text lines (no newline
or carriage return inside a line), loading and then saving reproduces the
content with line terminators normalized to a single trailing newline:
newline-terminated content loads to exactly its lines and round-trips
byte-identically, and content whose final line is unterminated (the form of
the spec's example) loads to exactly its lines and saves as those lines with
a final newline appended. -/
theorem c1_load_save_normalize (ls : List (List Char)) (h1 : ls ≠ [])
    (hc : ∀ l ∈ ls, '\n' ∉ l ∧ '\r' ∉ l) :
    loadBuffer (saveContent ls) = ls ∧
    saveContent (loadBuffer (saveContent ls)) = saveContent ls ∧
    (ls.getLast? ≠ some [] →
      loadBuffer (joinSep ls) = ls ∧
      saveContent (loadBuffer (joinSep ls)) = joinSep ls ++ ['\n']) := by
  have hscan : scanLines (saveContent ls) = ls := scanLines_saveContent ls hc
  have hload : loadBuffer (saveContent ls) = ls := by
    show (if (scanLines (saveContent ls)).isEmpty then [[]] else scanLines (saveContent ls)) = ls
    rw [if_neg (by rw [hscan]; simpa [List.isEmpty_iff] using h1), hscan]
  refine ⟨hload, by rw [hload], ?_⟩
  intro hlast
  have hscan2 : scanLines (joinSep ls) = ls := scanLines_joinSep ls h1 hc hlast
  have hload2 : loadBuffer (joinSep ls) = ls := by
    show (if (scanLines (joinSep ls)).isEmpty then [[]] else scanLines (joinSep ls)) = ls
    rw [if_neg (by rw [hscan2]; simpa [List.isEmpty_iff] using h1), hscan2]
  exact ⟨hload2, by rw [hload2, saveContent_eq_joinSep ls h1]⟩

/-- Witness for C1 at the spec's example: loading the content
`Line1\n Line2\n Line3` (without the spaces) yields exactly those three lines
and saving writes the same text with a trailing newline. -/
theorem c1_load_save_normalize_witness :
    loadBuffer (joinSep exThreeLines) = exThreeLines ∧
    saveContent (loadBuffer (joinSep exThreeLines)) = joinSep exThreeLines ++ ['\n'] :=
  (c1_load_save_normalize exThreeLines (by decide) (by decide)).2.2 (by decide)

/-- C2 (counterexample): with screen height 5 and the cursor on row 100 far
below the viewport, one `adjustOffsets` call sets `offsetY` to 96, so the
row satisfies `cursorY = offsetY + height - 1` and the claimed strict bound
`cursorY < offsetY + height − 1` is false. -/
theorem c2_strict_bound_counterexample :
    (adjustOffsets vFarBelow).cursorY = 100 ∧
    (adjustOffsets vFarBelow).offsetY = 96 ∧
    vFarBelow.h = 5 ∧
    ¬((adjustOffsets vFarBelow).cursorY <
        (adjustOffsets vFarBelow).offsetY + vFarBelow.h - 1) := by
  decide

/-- C2 (amended): for positive screen width and height, one `adjustOffsets`
call leaves the cursor unchanged and establishes
`offsetX ≤ cursorVisualColumn < offsetX + width` and
`offsetY ≤ cursorRow ≤ offsetY + height − 1` — the vertical upper bound
holds with equality (not strictly) exactly when the cursor was at or below
the bottom of the viewport. -/
theorem c2_adjust_offsets_bounds (v : ViewState) (hw : 1 ≤ v.w) (hh : 1 ≤ v.h) :
    (adjustOffsets v).cursorVX = v.cursorVX ∧
    (adjustOffsets v).cursorY = v.cursorY ∧
    (adjustOffsets v).offsetX ≤ v.cursorVX ∧
    v.cursorVX < (adjustOffsets v).offsetX + v.w ∧
    (adjustOffsets v).offsetY ≤ v.cursorY ∧
    v.cursorY ≤ (adjustOffsets v).offsetY + v.h - 1 := by
  simp only [adjustOffsets]
  split_ifs <;> simp_all <;> omega

/-- Witness for C2 (amended) at the far-below-viewport state. -/
theorem c2_adjust_offsets_bounds_witness :
    (adjustOffsets vFarBelow).offsetX ≤ vFarBelow.cursorVX ∧
    vFarBelow.cursorVX < (adjustOffsets vFarBelow).offsetX + vFarBelow.w ∧
    (adjustOffsets vFarBelow).offsetY ≤ vFarBelow.cursorY ∧
    vFarBelow.cursorY ≤ (adjustOffsets vFarBelow).offsetY + vFarBelow.h - 1 := by
  have h := c2_adjust_offsets_bounds vFarBelow (by decide) (by decide)
  exact ⟨h.2.2.1, h.2.2.2.1, h.2.2.2.2.1, h.2.2.2.2.2⟩

/-- C3: from any state with a valid cursor, inserting the characters `rs`
one by one at the cursor and then pressing Backspace the same number of
times returns the buffer content and the cursor row and column to their
pre-sequence values. -/
theorem c3_insert_backspace_roundtrip (e : Editor) (rs : List Char)
    (hY : e.cursorY < e.lines.length)
    (hX : e.cursorX ≤ (e.lines.getD e.cursorY []).length) :
    (handleBackspace^[rs.length] (rs.foldl handleInsertRune e)).lines = e.lines ∧
    (handleBackspace^[rs.length] (rs.foldl handleInsertRune e)).cursorX = e.cursorX ∧
    (handleBackspace^[rs.length] (rs.foldl handleInsertRune e)).cursorY = e.cursorY := by
  rw [insert_backspace_roundtrip_aux rs e hY hX]
  exact ⟨rfl, rfl, rfl⟩

/-- Witness for C3: inserting two characters and backspacing twice in the
two-character sample state restores it. -/
theorem c3_insert_backspace_roundtrip_witness :
    (handleBackspace^[(['x', 'y'] : List Char).length]
        ((['x', 'y'] : List Char).foldl handleInsertRune eSample)).lines = eSample.lines ∧
    (handleBackspace^[(['x', 'y'] : List Char).length]
        ((['x', 'y'] : List Char).foldl handleInsertRune eSample)).cursorX = eSample.cursorX ∧
    (handleBackspace^[(['x', 'y'] : List Char).length]
        ((['x', 'y'] : List Char).foldl handleInsertRune eSample)).cursorY = eSample.cursorY :=
  c3_insert_backspace_roundtrip eSample ['x', 'y'] (by decide) (by decide)

/-- C4 (counterexample): a load that opens the file but fails while reading
(before any line was scanned) leaves the buffer with zero lines, so the
"at least one line" invariant is not maintained by every failed load. -/
theorem c4_read_error_empties_buffer :
    (applyOps (NewEditor 24) [Op.load [] 0 0 (FileRead.readErr [])]).lines.length = 0 :=
  rfl

/-- C4 (amended): starting from the initial editor state, any sequence of
buffer operations, navigation, and file loads that either succeed or fail
to open (i.e. excluding only loads that fail with a read error after
opening) leaves the buffer with at least one line. -/
theorem c4_buffer_nonempty_invariant (hgt : Nat) (ops : List Op)
    (hops : ∀ op ∈ ops, isMidReadFailLoad op = false) :
    1 ≤ (applyOps (NewEditor hgt) ops).lines.length := by
  have main : ∀ (l : List Op) (e : Editor), 1 ≤ e.lines.length →
      (∀ op ∈ l, isMidReadFailLoad op = false) → 1 ≤ (applyOps e l).lines.length := by
    intro l
    induction l with
    | nil => intro e he _; exact he
    | cons op l ih =>
      intro e he hl
      exact ih (applyOp e op)
        (applyOp_preserves_nonempty e op he (hl op (by simp)))
        (fun o ho => hl o (by simp [ho]))
  exact main ops (NewEditor hgt) (le_refl 1) hops

/-- Witness for C4 (amended): an edit sequence containing a successful load
of an empty file and a load that fails to open keeps the buffer non-empty. -/
theorem c4_buffer_nonempty_invariant_witness :
    1 ≤ (applyOps (NewEditor 24)
      [Op.insertChar 'a', Op.splitLine, Op.backspace,
       Op.load ['f'] 0 0 (FileRead.ok []),
       Op.load ['g'] 0 0 FileRead.openFail, Op.delete]).lines.length :=
  c4_buffer_nonempty_invariant 24 _ (by decide)

/-- C5 (counterexample): on a load that opens the file but then hits a read
error, `loadFile` returns an error yet the buffer has been replaced by the
(here empty) partially read lines, so the buffer is not unchanged on every
failure. -/
theorem c5_read_error_changes_buffer :
    (loadFile eOneLine ['g'] 0 0 (FileRead.readErr [])).snd = true ∧
    (loadFile eOneLine ['g'] 0 0 (FileRead.readErr [])).fst.lines ≠ eOneLine.lines := by
  decide

/-- C5 (amended): when `loadFile` cannot open the file it returns an error
and the whole editor state — buffer, cursor, filename, mode — is unchanged;
when a read error occurs after opening it returns an error and the cursor,
filename and mode are unchanged, but the buffer now holds exactly the lines
read before the error (possibly none). -/
theorem c5_load_failure_preserves (e : Editor) (fname : List Char)
    (line col : Int) (f : FileRead) :
    (f = FileRead.openFail → loadFile e fname line col f = (e, true)) ∧
    (∀ got, f = FileRead.readErr got →
      (loadFile e fname line col f).snd = true ∧
      (loadFile e fname line col f).fst.cursorX = e.cursorX ∧
      (loadFile e fname line col f).fst.cursorY = e.cursorY ∧
      (loadFile e fname line col f).fst.currentFilename = e.currentFilename ∧
      (loadFile e fname line col f).fst.inCommandMode = e.inCommandMode ∧
      (loadFile e fname line col f).fst.lines = got) := by
  constructor
  · rintro rfl; rfl
  · rintro got rfl
    exact ⟨rfl, rfl, rfl, rfl, rfl, rfl⟩

/-- Witness for C5 (amended) at a concrete one-line editor. -/
theorem c5_load_failure_preserves_witness :
    loadFile eOneLine ['g'] 0 0 FileRead.openFail = (eOneLine, true) ∧
    (loadFile eOneLine ['g'] 0 0 (FileRead.readErr [['z']])).fst.currentFilename
      = eOneLine.currentFilename := by
  refine ⟨(c5_load_failure_preserves eOneLine ['g'] 0 0 FileRead.openFail).1 rfl, ?_⟩
  exact ((c5_load_failure_preserves eOneLine ['g'] 0 0 (FileRead.readErr [['z']])).2
    [['z']] rfl).2.2.2.1

/-- C6: with a valid cursor and a positive tab width, inserting a tab places
exactly one tab character at the cursor's logical column, advances the
logical column by exactly one, advances the derived visual column by the
configured tab width, and an immediate Backspace restores the whole state
(hence reverses both columns exactly). -/
theorem c6_insert_tab_columns (e : Editor)
    (hY : e.cursorY < e.lines.length)
    (hX : e.cursorX ≤ (e.lines.getD e.cursorY []).length)
    (hspt : 1 ≤ e.spacesPerTab) :
    (handleInsertRune e '\t').lines.getD e.cursorY [] =
      (e.lines.getD e.cursorY []).take e.cursorX ++
        '\t' :: (e.lines.getD e.cursorY []).drop e.cursorX ∧
    (handleInsertRune e '\t').cursorX = e.cursorX + 1 ∧
    (handleInsertRune e '\t').cursorY = e.cursorY ∧
    visualCol (handleInsertRune e '\t') = visualCol e + e.spacesPerTab ∧
    handleBackspace (handleInsertRune e '\t') = e := by
  have htk : ((e.lines.getD e.cursorY []).take e.cursorX).length = e.cursorX := by
    rw [List.length_take]; omega
  refine ⟨?_, ?_, ?_, ?_, backspace_insert e '\t' hY hX⟩
  · rw [handleInsertRune_valid_eq e '\t' hY hX]
    exact getD_set_self _ _ _ _ hY
  · rw [handleInsertRune_valid_eq e '\t' hY hX]
  · rw [handleInsertRune_valid_eq e '\t' hY hX]
  · rw [visualCol, visualCol, handleInsertRune_valid_eq e '\t' hY hX]
    show e.cursorX + 1 + calculateCursorOffsetX _ ((e.lines.set e.cursorY
        ((e.lines.getD e.cursorY []).take e.cursorX ++ '\t' ::
          (e.lines.getD e.cursorY []).drop e.cursorX)).getD e.cursorY []) = _
    rw [getD_set_self _ _ _ _ hY]
    rw [calculateCursorOffsetX_eq_count, calculateCursorOffsetX_eq_count]
    have hlen : ((e.lines.getD e.cursorY []).take e.cursorX ++ '\t' ::
        (e.lines.getD e.cursorY []).drop e.cursorX).length
        = (e.lines.getD e.cursorY []).length + 1 := by
      simp only [List.length_append, List.length_cons, List.length_take, List.length_drop]
      omega
    have hmin1 : min (({ e with
        lines := e.lines.set e.cursorY
          ((e.lines.getD e.cursorY []).take e.cursorX ++ '\t' :: (e.lines.getD e.cursorY []).drop e.cursorX)
        cursorX := e.cursorX + 1 } : Editor).cursorX)
        (((e.lines.getD e.cursorY []).take e.cursorX ++ '\t' ::
          (e.lines.getD e.cursorY []).drop e.cursorX).length) = e.cursorX + 1 := by
      show min (e.cursorX + 1) _ = e.cursorX + 1
      rw [hlen]; omega
    rw [hmin1]
    have hmin2 : min e.cursorX (e.lines.getD e.cursorY []).length = e.cursorX := by omega
    rw [hmin2]
    have htake : ((e.lines.getD e.cursorY []).take e.cursorX ++ '\t' ::
        (e.lines.getD e.cursorY []).drop e.cursorX).take (e.cursorX + 1)
        = (e.lines.getD e.cursorY []).take e.cursorX ++ ['\t'] := by
      rw [show (e.lines.getD e.cursorY []).take e.cursorX ++ '\t' ::
          (e.lines.getD e.cursorY []).drop e.cursorX
          = ((e.lines.getD e.cursorY []).take e.cursorX ++ ['\t']) ++
            (e.lines.getD e.cursorY []).drop e.cursorX by simp]
      exact List.take_left' (by simp only [List.length_append, List.length_cons,
        List.length_nil, htk])
    rw [htake, List.count_append]
    show e.cursorX + 1 + (List.count '\t' ((e.lines.getD e.cursorY []).take e.cursorX) + 1)
        * (({ e with
          lines := e.lines.set e.cursorY
            ((e.lines.getD e.cursorY []).take e.cursorX ++ '\t' :: (e.lines.getD e.cursorY []).drop e.cursorX)
          cursorX := e.cursorX + 1 } : Editor).spacesPerTab - 1) = _
    show e.cursorX + 1 + (List.count '\t' ((e.lines.getD e.cursorY []).take e.cursorX) + 1)
        * (e.spacesPerTab - 1) = _
    rw [Nat.add_mul, Nat.one_mul]
    generalize List.count '\t' ((e.lines.getD e.cursorY []).take e.cursorX)
        * (e.spacesPerTab - 1) = p
    omega

/-- Witness for C6 in the two-character sample state (tab width 4): the
logical column goes from 1 to 2 while the visual column advances by 4, and
Backspace restores the state. -/
theorem c6_insert_tab_columns_witness :
    (handleInsertRune eSample '\t').cursorX = eSample.cursorX + 1 ∧
    visualCol (handleInsertRune eSample '\t') = visualCol eSample + eSample.spacesPerTab ∧
    handleBackspace (handleInsertRune eSample '\t') = eSample := by
  have h := c6_insert_tab_columns eSample (by decide) (by decide) (by decide)
  exact ⟨h.2.1, h.2.2.2.1, h.2.2.2.2⟩

/-- C7: with a valid cursor, Enter splits the line and leaves the cursor at
the start of the newly created row, and an immediate Backspace there
restores the original buffer (same line count and contents) and the original
cursor row and column. -/
theorem c7_split_backspace_roundtrip (e : Editor)
    (hY : e.cursorY < e.lines.length)
    (hX : e.cursorX ≤ (e.lines.getD e.cursorY []).length) :
    (handleEnter e).cursorY = e.cursorY + 1 ∧
    (handleEnter e).cursorX = 0 ∧
    (handleBackspace (handleEnter e)).lines = e.lines ∧
    (handleBackspace (handleEnter e)).cursorX = e.cursorX ∧
    (handleBackspace (handleEnter e)).cursorY = e.cursorY := by
  refine ⟨?_, ?_, ?_, ?_, ?_⟩ <;>
    first
      | (rw [enter_backspace e hY hX])
      | (simp only [handleEnter, if_pos hY])

/-- C8 (counterexample): moving down from the end of the two-character first
line onto a four-character line, the target line is at least as long as the
column (4 ≥ 2), yet the column is not preserved: the end-of-line rule snaps
it to 4. -/
theorem c8_longer_target_not_preserved :
    eTwoLines.cursorX = 2 ∧
    (eTwoLines.lines.getD 1 []).length = 4 ∧
    (handleMoveDown eTwoLines).cursorX = 4 := by
  decide

/-- C8 (amended): for a vertical move with a valid cursor: a cursor at
column 0 stays at column 0; a cursor strictly inside the line keeps its
logical column when the target line is at least as long and is clamped to
the target line's length when the target is shorter; and a cursor exactly at
the end of a non-empty line always snaps to the target line's end — also
when the target line is strictly longer. -/
theorem c8_vertical_move_columns (e : Editor)
    (_hY : e.cursorY < e.lines.length)
    (_hX : e.cursorX ≤ (e.lines.getD e.cursorY []).length) :
    (e.cursorY + 1 < e.lines.length →
      (handleMoveDown e).cursorY = e.cursorY + 1 ∧
      (0 < e.cursorX → e.cursorX = (e.lines.getD e.cursorY []).length →
        (handleMoveDown e).cursorX = (e.lines.getD (e.cursorY + 1) []).length) ∧
      (e.cursorX < (e.lines.getD e.cursorY []).length →
        e.cursorX ≤ (e.lines.getD (e.cursorY + 1) []).length →
        (handleMoveDown e).cursorX = e.cursorX) ∧
      (e.cursorX < (e.lines.getD e.cursorY []).length →
        (e.lines.getD (e.cursorY + 1) []).length < e.cursorX →
        (handleMoveDown e).cursorX = (e.lines.getD (e.cursorY + 1) []).length) ∧
      (e.cursorX = 0 → (handleMoveDown e).cursorX = 0)) ∧
    (0 < e.cursorY →
      (handleMoveUp e).cursorY = e.cursorY - 1 ∧
      (0 < e.cursorX → e.cursorX = (e.lines.getD e.cursorY []).length →
        (handleMoveUp e).cursorX = (e.lines.getD (e.cursorY - 1) []).length) ∧
      (e.cursorX < (e.lines.getD e.cursorY []).length →
        e.cursorX ≤ (e.lines.getD (e.cursorY - 1) []).length →
        (handleMoveUp e).cursorX = e.cursorX) ∧
      (e.cursorX < (e.lines.getD e.cursorY []).length →
        (e.lines.getD (e.cursorY - 1) []).length < e.cursorX →
        (handleMoveUp e).cursorX = (e.lines.getD (e.cursorY - 1) []).length) ∧
      (e.cursorX = 0 → (handleMoveUp e).cursorX = 0)) := by
  constructor
  · intro hlt
    simp only [handleMoveDown, if_pos hlt]
    refine ⟨by trivial, ?_, ?_, ?_, ?_⟩
    · intro h0 heol
      show (if _ then _ else _) = _
      rw [if_pos ⟨h0, Or.inl heol⟩]
    · intro hin hfit
      show (if _ then _ else _) = _
      rw [if_neg (by rintro ⟨hc1, hc2 | hc2⟩ <;> omega)]
    · intro hin hshort
      show (if _ then _ else _) = _
      rw [if_pos ⟨by omega, Or.inr (by omega)⟩]
    · intro h0
      show (if _ then _ else _) = _
      rw [if_neg (by rintro ⟨hc1, hc2⟩; omega)]
      exact h0
  · intro hpos
    simp only [handleMoveUp, if_pos hpos]
    refine ⟨by trivial, ?_, ?_, ?_, ?_⟩
    · intro h0 heol
      show (if _ then _ else _) = _
      rw [if_pos ⟨h0, Or.inl heol⟩]
    · intro hin hfit
      show (if _ then _ else _) = _
      rw [if_neg (by rintro ⟨hc1, hc2 | hc2⟩ <;> omega)]
    · intro hin hshort
      show (if _ then _ else _) = _
      rw [if_pos ⟨by omega, Or.inr (by omega)⟩]
    · intro h0
      show (if _ then _ else _) = _
      rw [if_neg (by rintro ⟨hc1, hc2⟩; omega)]
      exact h0

/-- Witness for C8 (amended) in the two-line state: the end-of-line cursor
snaps to the longer target line's end when moving down. -/
theorem c8_vertical_move_columns_witness :
    (handleMoveDown eTwoLines).cursorY = eTwoLines.cursorY + 1 ∧
    (handleMoveDown eTwoLines).cursorX = (eTwoLines.lines.getD 1 []).length := by
  have h := (c8_vertical_move_columns eTwoLines (by decide) (by decide)).1 (by decide)
  exact ⟨h.1, h.2.1 (by decide) (by decide)⟩

/-- C9: `ClearLine i` removes exactly line `i`'s cache entry — `Exists i`
becomes false while every other index's entry is unchanged; `Clear` empties
the whole cache, so no index reports an entry; and after `ClearLine i`, the
next `Update` whose window `[start, end)` contains `i` recomputes line `i`'s
spans via the highlighter. -/
theorem c9_highlight_cache_invalidation {α : Type} (hc : HighlightCache α)
    (i : Int) (offsetY height : Int) (lines : List (List Char)) :
    (hc.ClearLine i).Exists i = false ∧
    (∀ j, j ≠ i → (hc.ClearLine i).cache j = hc.cache j) ∧
    (∀ j, hc.Clear.Exists j = false) ∧
    (hc.updateStart offsetY height ≤ i →
      i < hc.updateEnd offsetY height lines →
      ((hc.ClearLine i).Update offsetY height lines).cache i =
        some (hc.highlighter (lines.getD i.toNat []))) := by
  refine ⟨?_, ?_, ?_, ?_⟩
  · simp [HighlightCache.ClearLine, HighlightCache.Exists]
  · intro j hj
    simp [HighlightCache.ClearLine, hj]
  · intro j
    simp [HighlightCache.Clear, HighlightCache.Exists]
  · intro hstart hstop
    have hwin : (hc.ClearLine i).updateStart offsetY height ≤ i ∧
        i < (hc.ClearLine i).updateEnd offsetY height lines ∧
        (((hc.ClearLine i).cache i).isNone = true) := by
      refine ⟨hstart, hstop, ?_⟩
      simp [HighlightCache.ClearLine]
    simp only [HighlightCache.Update, if_pos hwin]
    rfl

/-- Witness for C9: in the sample length-recording cache over five lines,
clearing line 2 makes it absent while line 1's (absent) entry is untouched,
a cleared cache has no entries, and the next update over the window
containing line 2 recomputes its span value 3. -/
theorem c9_highlight_cache_invalidation_witness :
    (hcSample.ClearLine 2).Exists 2 = false ∧
    (hcSample.ClearLine 2).cache 1 = hcSample.cache 1 ∧
    hcSample.Clear.Exists 7 = false ∧
    ((hcSample.ClearLine 2).Update 0 1 exFiveLines).cache 2 = some 3 := by
  have h := c9_highlight_cache_invalidation hcSample 2 0 1 exFiveLines
  exact ⟨h.1, h.2.1 1 (by decide), h.2.2.1 7,
    (h.2.2.2 (by decide) (by decide)).trans (by decide)⟩

/-- C10: `saveFile` writes exactly one newline after every buffer line: for
a non-empty buffer whose lines contain no newline, the written content ends
with a newline and contains exactly one newline byte per buffer line, and
saving a freshly created editor (one empty line) writes the single byte
`\n`, never an empty file. -/
theorem c10_save_newline_per_line (ls : List (List Char)) (h1 : ls ≠ [])
    (hc : ∀ l ∈ ls, '\n' ∉ l) :
    (saveContent ls).getLast? = some '\n' ∧
    (saveContent ls).count '\n' = ls.length ∧
    (∀ hgt : Nat, saveContent (NewEditor hgt).lines = ['\n']) := by
  refine ⟨?_, ?_, fun _ => rfl⟩
  · induction ls with
    | nil => exact absurd rfl h1
    | cons l ls ih =>
      rw [saveContent_cons]
      cases ls with
      | nil =>
        rw [show l ++ '\n' :: saveContent [] = l ++ ['\n'] from rfl]
        exact List.getLast?_concat l
      | cons l2 ls2 =>
        rw [show l ++ '\n' :: saveContent (l2 :: ls2)
            = (l ++ ['\n']) ++ saveContent (l2 :: ls2) by simp]
        rw [List.getLast?_append_of_ne_nil _ (saveContent_ne_nil _ (by simp))]
        exact ih (by simp) (fun x hx => hc x (by simp [hx]))
  · clear h1
    induction ls with
    | nil => rfl
    | cons l ls ih =>
      rw [saveContent_cons]
      rw [show l ++ '\n' :: saveContent ls = (l ++ ['\n']) ++ saveContent ls by simp]
      rw [List.count_append, List.count_append]
      have hz : List.count '\n' l = 0 := List.count_eq_zero.mpr (hc l (by simp))
      have hr : List.count '\n' (saveContent ls) = ls.length :=
        ih (fun x hx => hc x (by simp [hx]))
      simp [hz, hr]
      omega

/-- Witness for C10 at a concrete two-line buffer. -/
theorem c10_save_newline_per_line_witness :
    (saveContent exPairLines).getLast? = some '\n' ∧
    (saveContent exPairLines).count '\n' = exPairLines.length ∧
    saveContent (NewEditor 24).lines = ['\n'] := by
  have h := c10_save_newline_per_line exPairLines (by decide) (by decide)
  exact ⟨h.1, h.2.1, h.2.2 24⟩

/-- Witness for C7 in the two-character sample state. -/
theorem c7_split_backspace_roundtrip_witness :
    (handleEnter eSample).cursorY = eSample.cursorY + 1 ∧
    (handleEnter eSample).cursorX = 0 ∧
    (handleBackspace (handleEnter eSample)).lines = eSample.lines ∧
    (handleBackspace (handleEnter eSample)).cursorX = eSample.cursorX ∧
    (handleBackspace (handleEnter eSample)).cursorY = eSample.cursorY :=
  c7_split_backspace_roundtrip eSample (by decide) (by decide)
